import Mathlib

/-!
Shallow embedding of the map-generation core of the RL-rust repository:
`src/rect.rs` (the Room capability and `Rect`), `src/map.rs` (`TileType`,
`Map`, the generation algorithms) and `src/mapgen/simple_map.rs`
(`SimpleMapBuilder`).

Machine integers: `i32` values are embedded as `Int`, `usize` values as
`Nat`. The Rust `as usize` cast of an `i32` is two's-complement
reinterpretation, `v mod 2^64`; the `as i32` cast of a `usize` wraps into
`[-2^31, 2^31)`. `Vec` becomes `List`.
-/

namespace RL

/-- Tile variants from `map.rs`: `enum TileType { Wall, Floor }`. -/
inductive TileType where
  | Wall : TileType
  | Floor : TileType
deriving DecidableEq, Repr

/-- Rectangle from `rect.rs`: `pub struct Rect { x1, x2, y1, y2 : i32 }`. -/
structure Rect where
  x1 : Int
  x2 : Int
  y1 : Int
  y2 : Int
deriving DecidableEq, Repr

/-- `Rect::new(x, y, w, h)` builds corners `(x, y)` and `(x + w, y + h)`. -/
def Rect.new (x y w h : Int) : Rect :=
  { x1 := x, y1 := y, x2 := x + w, y2 := y + h }

/-- Inclusive integer interval `a..=b` as a list (empty when `b < a`). -/
def intRange (a b : Int) : List Int :=
  (List.range (b + 1 - a).toNat).map (fun i : Nat => a + (i : Int))

/-- `Rect::spaces` (the `Room` impl for `Rect`): all cells `(x, y)` with
`y` in `y1+1..=y2` and `x` in `x1+1..=x2`, row-major. -/
def Rect.spaces (r : Rect) : List (Int × Int) :=
  (intRange (r.y1 + 1) r.y2).flatMap (fun y =>
    (intRange (r.x1 + 1) r.x2).map (fun x => (x, y)))

/-- `Room::center` for `Rect`: midpoints of the corners. Rust `/` on `i32`
truncates toward zero, which is `Int.tdiv`. -/
def Rect.center (r : Rect) : Int × Int :=
  (Int.tdiv (r.x1 + r.x2) 2, Int.tdiv (r.y1 + r.y2) 2)

/-- Default `Room::intersect` from `rect.rs`: counts the cells of
`self.spaces()` that occur in `other.spaces()` and returns `true` exactly
when that count is `0` — an inverted overlap test: `true` means the two
regions are disjoint. -/
def Rect.intersect (a b : Rect) : Bool :=
  (a.spaces.filter (fun p => b.spaces.contains p)).length == 0

/-- A raw random stream: the sequence of draws the generator hands out. -/
def Rng : Type := Nat → Nat

/-- Take one raw draw off the stream. -/
def Rng.next (g : Rng) : Nat × Rng := (g 0, fun n => g (n + 1))

/-- Modelled from the spec: `RandomNumberGenerator::range` of the external
rltk crate — "a random-number source providing inclusive integer range
draws", "width and height within a fixed range (6-10 inclusive)". One draw,
mapped into the inclusive interval `lo..=hi`. -/
def Rng.range (lo hi : Int) (g : Rng) : Int × Rng :=
  (lo + (g.next.1 : Int) % (hi - lo + 1), g.next.2)

/-- Modelled from the spec: `RandomNumberGenerator::roll_dice` of the
external rltk crate — "dice-style rolls": `n` dice each showing `1..=die`,
summed. -/
def Rng.roll_dice (n : Nat) (die : Int) (g : Rng) : Int × Rng :=
  match n with
  | 0 => (0, g)
  | Nat.succ m =>
    let rest := Rng.roll_dice m die g.next.2
    (1 + (g.next.1 : Int) % die + rest.1, rest.2)

/-- The `Map` struct from `map.rs`; `Vec<TileType>` and `Vec<bool>` become
lists, `i32` fields become `Int`. -/
structure Map where
  tiles : List TileType
  rooms : List Rect
  width : Int
  height : Int
  revealed_tiles : List Bool
  visible_tiles : List Bool
  depth : Int
deriving Repr

/-- `Map::new(new_depth)`: 80x50 grid, all `Wall`, no rooms, visibility
arrays all `false`. -/
def Map.new (new_depth : Int) : Map :=
  { tiles := List.replicate (80 * 50) TileType.Wall
    rooms := []
    width := 80
    height := 50
    revealed_tiles := List.replicate (80 * 50) false
    visible_tiles := List.replicate (80 * 50) false
    depth := new_depth }

/-- The `as i32` cast of a `usize`: two's-complement wrap into
`[-2^31, 2^31)`. -/
def i32_of_usize (w : Nat) : Int :=
  if (w : Int) % 2 ^ 32 < 2 ^ 31 then (w : Int) % 2 ^ 32
  else (w : Int) % 2 ^ 32 - 2 ^ 32

/-- `Map::new_with_dimensions(w, h, new_depth)`: parameterised grid size,
otherwise as `Map::new`. -/
def Map.new_with_dimensions (w h : Nat) (new_depth : Int) : Map :=
  { tiles := List.replicate (w * h) TileType.Wall
    rooms := []
    width := i32_of_usize w
    height := i32_of_usize h
    revealed_tiles := List.replicate (w * h) false
    visible_tiles := List.replicate (w * h) false
    depth := new_depth }

/-- The `as usize` cast of an `i32`: two's-complement reinterpretation,
`v mod 2^64`. -/
def usize_of_i32 (v : Int) : Nat :=
  (v % 2 ^ 64).toNat

/-- `Map::xy_idx(x, y)`: `y as usize * self.width as usize + x as usize`.
The `usize` product and sum cannot overflow for any reachable call (a Rust
debug build would panic there), so their wrap is omitted. -/
def Map.xy_idx (m : Map) (x y : Int) : Nat :=
  usize_of_i32 y * usize_of_i32 m.width + usize_of_i32 x

/-- `Map::apply_room_to_map(room)`, monomorphised to `Rect` (the only
`Room` implementation): set every cell of `room.spaces()` to `Floor`. The
Rust `Vec` write panics out of bounds; every caller stays in bounds, where
`List.set` agrees with it. -/
def Map.apply_room_to_map (m : Map) (room : Rect) : Map :=
  room.spaces.foldl
    (fun acc p =>
      { acc with tiles := acc.tiles.set (acc.xy_idx p.1 p.2) TileType.Floor })
    m

/-- `Map::apply_horizontal_tunnel(x1, x2, y)`: for `x` in
`min(x1,x2)..=max(x1,x2)`, dig `(x, y)` to `Floor` when
`idx > 0 && idx < self.width as usize * self.height as usize`. -/
def Map.apply_horizontal_tunnel (m : Map) (x1 x2 y : Int) : Map :=
  (intRange (min x1 x2) (max x1 x2)).foldl
    (fun acc x =>
      let idx := acc.xy_idx x y
      if 0 < idx ∧ idx < usize_of_i32 acc.width * usize_of_i32 acc.height then
        { acc with tiles := acc.tiles.set idx TileType.Floor }
      else acc)
    m

/-- `Map::apply_vertical_tunnel(y1, y2, x)`: for `y` in
`min(y1,y2)..=max(y1,y2)`, dig `(x, y)` to `Floor` when
`idx > 0 && idx < self.width as usize * self.height as usize`. -/
def Map.apply_vertical_tunnel (m : Map) (y1 y2 x : Int) : Map :=
  (intRange (min y1 y2) (max y1 y2)).foldl
    (fun acc y =>
      let idx := acc.xy_idx x y
      if 0 < idx ∧ idx < usize_of_i32 acc.width * usize_of_i32 acc.height then
        { acc with tiles := acc.tiles.set idx TileType.Floor }
      else acc)
    m

/-- `Map::new_map_all_open(new_depth)`: start all-Wall, carve the single
room `Rect::new(0, 0, 78, 48)`, push it onto the room list. -/
def Map.new_map_all_open (new_depth : Int) : Map :=
  let map := Map.new new_depth
  let new_room := Rect.new 0 0 78 48
  let map1 := map.apply_room_to_map new_room
  { map1 with rooms := map1.rooms ++ [new_room] }

/-- The candidate-room computation at the top of each loop iteration of
`Map::new_map_rooms_and_corridors`: `w = rng.range(6, 10)`,
`h = rng.range(6, 10)`, `x = rng.roll_dice(1, width - w - 1) - 1`,
`y = rng.roll_dice(1, height - h - 1) - 1`, `Rect::new(x, y, w, h)`. -/
def Map.rc_candidate (map : Map) (g : Rng) : Rect × Rng :=
  let rw := Rng.range 6 10 g
  let rh := Rng.range 6 10 rw.2
  let rx := Rng.roll_dice 1 (map.width - rw.1 - 1) rh.2
  let ry := Rng.roll_dice 1 (map.height - rh.1 - 1) rx.2
  (Rect.new (rx.1 - 1) (ry.1 - 1) rw.1 rh.1, ry.2)

/-- One iteration of the `for _ in 0..MAX_ROOMS` loop body of
`Map::new_map_rooms_and_corridors`: draw a candidate, reject it when
`new_room.intersect(other_room)` for some accepted room, otherwise carve
it, connect it to the previous room (when one exists) by two tunnels in a
coin-flipped order, and append it to the room list. -/
def Map.rc_step (st : Map × Rng) : Map × Rng :=
  let map := st.1
  let cand := map.rc_candidate st.2
  let new_room := cand.1
  let ok := map.rooms.all (fun other_room => !(new_room.intersect other_room))
  if ok then
    let map1 := map.apply_room_to_map new_room
    match map1.rooms.getLast? with
    | none => ({ map1 with rooms := map1.rooms ++ [new_room] }, cand.2)
    | some prev_room =>
      let c := new_room.center
      let pc := prev_room.center
      let coin := Rng.range 0 2 cand.2
      let map2 :=
        if coin.1 == 1 then
          (map1.apply_horizontal_tunnel pc.1 c.1 pc.2).apply_vertical_tunnel pc.2 c.2 c.1
        else
          (map1.apply_vertical_tunnel pc.2 c.2 pc.1).apply_horizontal_tunnel pc.1 c.1 c.2
      ({ map2 with rooms := map2.rooms ++ [new_room] }, coin.2)
  else (map, cand.2)

/-- `Map::new_map_rooms_and_corridors(new_depth)`: 30 iterations of the
loop body on an all-Wall 80x50 base map. In the Rust code the random
generator is created inside the function from entropy; the embedding takes
the raw stream `g` as a parameter and the theorems quantify over it. -/
def Map.new_map_rooms_and_corridors (new_depth : Int) (g : Rng) : Map :=
  ((List.range 30).foldl (fun st _ => Map.rc_step st)
    (Map.new_with_dimensions 80 50 new_depth, g)).1

/-- `SimpleMapBuilder::build` from `mapgen/simple_map.rs`: delegates to
`Map::new`. -/
def SimpleMapBuilder.build (new_depth : Int) : Map :=
  Map.new new_depth

/-- Per-construction dimension contract: the three per-tile arrays all have
`width * height` entries. -/
def Map.dimsOk (m : Map) : Prop :=
  m.tiles.length = m.width.toNat * m.height.toNat ∧
    m.revealed_tiles.length = m.width.toNat * m.height.toNat ∧
    m.visible_tiles.length = m.width.toNat * m.height.toNat

/-- Every in-range border cell (`x = 0`, `x = width-1`, `y = 0`,
`y = height-1`) holds a `Wall` tile. -/
def Map.borderWall (m : Map) : Prop :=
  ∀ x y : Int, 0 ≤ x → x < m.width → 0 ≤ y → y < m.height →
    (x = 0 ∨ x = m.width - 1 ∨ y = 0 ∨ y = m.height - 1) →
    m.tiles.get? (m.xy_idx x y) = some TileType.Wall

/-- A room whose occupied cells (and a one-cell margin) stay inside the
interior of the 80x50 grid. -/
def RoomIn (r : Rect) : Prop :=
  0 ≤ r.x1 ∧ r.x1 + 6 ≤ r.x2 ∧ r.x2 ≤ 78 ∧
    0 ≤ r.y1 ∧ r.y1 + 6 ≤ r.y2 ∧ r.y2 ≤ 48

/-- The loop invariant of `new_map_rooms_and_corridors`: fixed 80x50
dimensions, full-size tile and visibility arrays, every accepted room
interior, and a all-Wall border. -/
def RCInv (st : Map × Rng) : Prop :=
  st.1.width = 80 ∧ st.1.height = 50 ∧ st.1.tiles.length = 4000 ∧
    st.1.revealed_tiles.length = 4000 ∧ st.1.visible_tiles.length = 4000 ∧
    (∀ r ∈ st.1.rooms, RoomIn r) ∧ st.1.borderWall

/-- Any two accepted rooms share an occupied cell. -/
def RoomsOverlap (st : Map × Rng) : Prop :=
  List.Pairwise (fun a b => ∃ p : Int × Int, p ∈ a.spaces ∧ p ∈ b.spaces)
    st.1.rooms

/-! Basic lemmas about the geometry primitives. -/

lemma mem_intRange {a b x : Int} : x ∈ intRange a b ↔ a ≤ x ∧ x ≤ b := by
  unfold intRange
  simp only [List.mem_map, List.mem_range]
  constructor
  · rintro ⟨i, hi, rfl⟩
    omega
  · rintro ⟨h1, h2⟩
    exact ⟨(x - a).toNat, by omega, by omega⟩

lemma mem_spaces {r : Rect} {p : Int × Int} :
    p ∈ r.spaces ↔
      r.x1 + 1 ≤ p.1 ∧ p.1 ≤ r.x2 ∧ r.y1 + 1 ≤ p.2 ∧ p.2 ≤ r.y2 := by
  obtain ⟨px, py⟩ := p
  unfold Rect.spaces
  simp only [List.mem_flatMap, List.mem_map, Prod.mk.injEq]
  constructor
  · rintro ⟨y, hy, x, hx, rfl, rfl⟩
    exact ⟨(mem_intRange.mp hx).1, (mem_intRange.mp hx).2,
      (mem_intRange.mp hy).1, (mem_intRange.mp hy).2⟩
  · rintro ⟨h1, h2, h3, h4⟩
    exact ⟨py, mem_intRange.mpr ⟨h3, h4⟩, px, mem_intRange.mpr ⟨h1, h2⟩, rfl, rfl⟩

lemma contains_eq_true_iff_mem {l : List (Int × Int)} {p : Int × Int} :
    l.contains p = true ↔ p ∈ l := by
  rw [List.contains_iff_exists_mem_beq]
  constructor
  · rintro ⟨q, hq, hbeq⟩
    rwa [show p = q from by simpa using hbeq]
  · intro hp
    exact ⟨p, hp, by simp⟩

lemma contains_eq_decide_mem {l : List (Int × Int)} {p : Int × Int} :
    l.contains p = decide (p ∈ l) := by
  cases hc : l.contains p with
  | false =>
    have hnm : ¬ p ∈ l := fun hm => by
      rw [contains_eq_true_iff_mem.mpr hm] at hc
      cases hc
    simp [hnm]
  | true =>
    have hm := contains_eq_true_iff_mem.mp hc
    simp [hm]

lemma intersect_eq_true_iff {a b : Rect} :
    a.intersect b = true ↔ ∀ p : Int × Int, ¬(p ∈ a.spaces ∧ p ∈ b.spaces) := by
  unfold Rect.intersect
  rw [beq_iff_eq, List.length_eq_zero, List.filter_eq_nil_iff]
  constructor
  · intro h p ⟨hpa, hpb⟩
    exact h p hpa (contains_eq_true_iff_mem.mpr hpb)
  · intro h p hpa hcont
    exact h p ⟨hpa, contains_eq_true_iff_mem.mp hcont⟩

lemma intersect_eq_false_iff {a b : Rect} :
    a.intersect b = false ↔ ∃ p : Int × Int, p ∈ a.spaces ∧ p ∈ b.spaces := by
  constructor
  · intro h
    by_contra hc
    push_neg at hc
    have : a.intersect b = true := intersect_eq_true_iff.mpr (by
      intro p ⟨h1, h2⟩
      exact absurd h2 (hc p h1))
    rw [this] at h
    cases h
  · intro ⟨p, h1, h2⟩
    cases hb : a.intersect b with
    | false => rfl
    | true => exact absurd ⟨h1, h2⟩ (intersect_eq_true_iff.mp hb p)

/-! Folds whose steps rewrite only the `tiles` field. -/

lemma foldl_tiles_shape {α : Type} (step : Map → α → Map)
    (h : ∀ (acc : Map) (a : α), ∃ t, step acc a = { acc with tiles := t }) :
    ∀ (L : List α) (m : Map), ∃ t, L.foldl step m = { m with tiles := t } := by
  intro L
  induction L with
  | nil => exact fun m => ⟨m.tiles, rfl⟩
  | cons a L ih =>
    intro m
    obtain ⟨t1, h1⟩ := h m a
    obtain ⟨t2, h2⟩ := ih { m with tiles := t1 }
    exact ⟨t2, by rw [List.foldl_cons, h1, h2]⟩

lemma apply_room_shape (m : Map) (r : Rect) :
    ∃ t, m.apply_room_to_map r = { m with tiles := t } :=
  foldl_tiles_shape _ (fun _ _ => ⟨_, rfl⟩) r.spaces m

lemma apply_horizontal_tunnel_shape (m : Map) (x1 x2 y : Int) :
    ∃ t, m.apply_horizontal_tunnel x1 x2 y = { m with tiles := t } := by
  refine foldl_tiles_shape _ (fun acc x => ?_) _ m
  dsimp only
  split
  · exact ⟨_, rfl⟩
  · exact ⟨acc.tiles, rfl⟩

lemma apply_vertical_tunnel_shape (m : Map) (y1 y2 x : Int) :
    ∃ t, m.apply_vertical_tunnel y1 y2 x = { m with tiles := t } := by
  refine foldl_tiles_shape _ (fun acc y => ?_) _ m
  dsimp only
  split
  · exact ⟨_, rfl⟩
  · exact ⟨acc.tiles, rfl⟩

lemma fields_of_shape {m m' : Map} (h : ∃ t, m' = { m with tiles := t }) :
    m'.rooms = m.rooms ∧ m'.width = m.width ∧ m'.height = m.height ∧
      m'.revealed_tiles = m.revealed_tiles ∧ m'.visible_tiles = m.visible_tiles ∧
      m'.depth = m.depth := by
  obtain ⟨t, rfl⟩ := h
  exact ⟨rfl, rfl, rfl, rfl, rfl, rfl⟩

lemma apply_room_fields (m : Map) (r : Rect) :
    (m.apply_room_to_map r).rooms = m.rooms ∧
      (m.apply_room_to_map r).width = m.width ∧
      (m.apply_room_to_map r).height = m.height ∧
      (m.apply_room_to_map r).revealed_tiles = m.revealed_tiles ∧
      (m.apply_room_to_map r).visible_tiles = m.visible_tiles ∧
      (m.apply_room_to_map r).depth = m.depth :=
  fields_of_shape (apply_room_shape m r)

lemma apply_horizontal_tunnel_fields (m : Map) (x1 x2 y : Int) :
    (m.apply_horizontal_tunnel x1 x2 y).rooms = m.rooms ∧
      (m.apply_horizontal_tunnel x1 x2 y).width = m.width ∧
      (m.apply_horizontal_tunnel x1 x2 y).height = m.height ∧
      (m.apply_horizontal_tunnel x1 x2 y).revealed_tiles = m.revealed_tiles ∧
      (m.apply_horizontal_tunnel x1 x2 y).visible_tiles = m.visible_tiles ∧
      (m.apply_horizontal_tunnel x1 x2 y).depth = m.depth :=
  fields_of_shape (apply_horizontal_tunnel_shape m x1 x2 y)

lemma apply_vertical_tunnel_fields (m : Map) (y1 y2 x : Int) :
    (m.apply_vertical_tunnel y1 y2 x).rooms = m.rooms ∧
      (m.apply_vertical_tunnel y1 y2 x).width = m.width ∧
      (m.apply_vertical_tunnel y1 y2 x).height = m.height ∧
      (m.apply_vertical_tunnel y1 y2 x).revealed_tiles = m.revealed_tiles ∧
      (m.apply_vertical_tunnel y1 y2 x).visible_tiles = m.visible_tiles ∧
      (m.apply_vertical_tunnel y1 y2 x).depth = m.depth :=
  fields_of_shape (apply_vertical_tunnel_shape m y1 y2 x)

/-! Reduction of the map-level folds to folds on the tile list. -/

lemma room_fold_tiles (L : List (Int × Int)) :
    ∀ m : Map,
      (L.foldl (fun acc p =>
          { acc with tiles := acc.tiles.set (acc.xy_idx p.1 p.2) TileType.Floor }) m).tiles
        = L.foldl (fun t p => t.set (m.xy_idx p.1 p.2) TileType.Floor) m.tiles := by
  induction L with
  | nil => exact fun _ => rfl
  | cons a L ih =>
    intro m
    rw [List.foldl_cons, List.foldl_cons]
    exact ih { m with tiles := m.tiles.set (m.xy_idx a.1 a.2) TileType.Floor }

lemma apply_room_tiles (m : Map) (r : Rect) :
    (m.apply_room_to_map r).tiles
      = r.spaces.foldl (fun t p => t.set (m.xy_idx p.1 p.2) TileType.Floor) m.tiles :=
  room_fold_tiles r.spaces m

lemma tunnel_fold_tiles (y : Int) (L : List Int) :
    ∀ m : Map,
      (L.foldl (fun acc x =>
          if 0 < acc.xy_idx x y ∧
              acc.xy_idx x y < usize_of_i32 acc.width * usize_of_i32 acc.height then
            { acc with tiles := acc.tiles.set (acc.xy_idx x y) TileType.Floor }
          else acc) m).tiles
        = L.foldl (fun t x =>
            if 0 < m.xy_idx x y ∧
                m.xy_idx x y < usize_of_i32 m.width * usize_of_i32 m.height then
              t.set (m.xy_idx x y) TileType.Floor
            else t) m.tiles := by
  induction L with
  | nil => exact fun _ => rfl
  | cons a L ih =>
    intro m
    rw [List.foldl_cons, List.foldl_cons]
    by_cases hc : 0 < m.xy_idx a y ∧
        m.xy_idx a y < usize_of_i32 m.width * usize_of_i32 m.height
    · rw [if_pos hc, if_pos hc]
      exact ih { m with tiles := m.tiles.set (m.xy_idx a y) TileType.Floor }
    · rw [if_neg hc, if_neg hc]
      exact ih m

lemma apply_horizontal_tunnel_tiles (m : Map) (x1 x2 y : Int) :
    (m.apply_horizontal_tunnel x1 x2 y).tiles
      = (intRange (min x1 x2) (max x1 x2)).foldl (fun t x =>
          if 0 < m.xy_idx x y ∧
              m.xy_idx x y < usize_of_i32 m.width * usize_of_i32 m.height then
            t.set (m.xy_idx x y) TileType.Floor
          else t) m.tiles :=
  tunnel_fold_tiles y (intRange (min x1 x2) (max x1 x2)) m

lemma tunnel_fold_tiles_v (x : Int) (L : List Int) :
    ∀ m : Map,
      (L.foldl (fun acc y =>
          if 0 < acc.xy_idx x y ∧
              acc.xy_idx x y < usize_of_i32 acc.width * usize_of_i32 acc.height then
            { acc with tiles := acc.tiles.set (acc.xy_idx x y) TileType.Floor }
          else acc) m).tiles
        = L.foldl (fun t y =>
            if 0 < m.xy_idx x y ∧
                m.xy_idx x y < usize_of_i32 m.width * usize_of_i32 m.height then
              t.set (m.xy_idx x y) TileType.Floor
            else t) m.tiles := by
  induction L with
  | nil => exact fun _ => rfl
  | cons a L ih =>
    intro m
    rw [List.foldl_cons, List.foldl_cons]
    by_cases hc : 0 < m.xy_idx x a ∧
        m.xy_idx x a < usize_of_i32 m.width * usize_of_i32 m.height
    · rw [if_pos hc, if_pos hc]
      exact ih { m with tiles := m.tiles.set (m.xy_idx x a) TileType.Floor }
    · rw [if_neg hc, if_neg hc]
      exact ih m

lemma apply_vertical_tunnel_tiles (m : Map) (y1 y2 x : Int) :
    (m.apply_vertical_tunnel y1 y2 x).tiles
      = (intRange (min y1 y2) (max y1 y2)).foldl (fun t y =>
          if 0 < m.xy_idx x y ∧
              m.xy_idx x y < usize_of_i32 m.width * usize_of_i32 m.height then
            t.set (m.xy_idx x y) TileType.Floor
          else t) m.tiles :=
  tunnel_fold_tiles_v x (intRange (min y1 y2) (max y1 y2)) m

/-! Folds on the tile list that set computed indices to `Floor`, possibly
under a guard. -/

section SetFold

variable {α : Type} (f : α → Nat) (c : α → Prop) [DecidablePred c]

lemma condfold_length (L : List α) :
    ∀ t : List TileType,
      (L.foldl (fun t a => if c a then t.set (f a) TileType.Floor else t) t).length
        = t.length := by
  induction L with
  | nil => exact fun _ => rfl
  | cons a L ih =>
    intro t
    rw [List.foldl_cons]
    by_cases hc : c a
    · rw [if_pos hc, ih, List.length_set]
    · rw [if_neg hc, ih]

lemma condfold_get?_ne (j : Nat) (L : List α) :
    ∀ t : List TileType, (∀ a ∈ L, c a → f a ≠ j) →
      (L.foldl (fun t a => if c a then t.set (f a) TileType.Floor else t) t).get? j
        = t.get? j := by
  induction L with
  | nil => exact fun _ _ => rfl
  | cons a L ih =>
    intro t hne
    rw [List.foldl_cons]
    rw [ih _ (fun b hb => hne b (List.mem_cons_of_mem a hb))]
    by_cases hc : c a
    · rw [if_pos hc, List.get?_eq_getElem?, List.get?_eq_getElem?,
        List.getElem?_set_ne (hne a (List.mem_cons_self a L) hc)]
    · rw [if_neg hc]

lemma condfold_keeps_floor (j : Nat) (L : List α) :
    ∀ t : List TileType, t.get? j = some TileType.Floor →
      (L.foldl (fun t a => if c a then t.set (f a) TileType.Floor else t) t).get? j
        = some TileType.Floor := by
  induction L with
  | nil => exact fun _ h => h
  | cons a L ih =>
    intro t h
    rw [List.foldl_cons]
    apply ih
    by_cases hc : c a
    · rw [if_pos hc]
      by_cases he : f a = j
      · have hj : j < t.length := by
          rw [List.get?_eq_getElem?] at h
          exact (List.getElem?_eq_some.mp h).1
        subst he
        rw [List.get?_eq_getElem?, List.getElem?_set_self hj]
      · rw [List.get?_eq_getElem?, List.getElem?_set_ne he, ← List.get?_eq_getElem?]
        exact h
    · rw [if_neg hc]
      exact h

lemma condfold_hits (j : Nat) (L : List α) :
    ∀ t : List TileType, j < t.length → (∃ a ∈ L, c a ∧ f a = j) →
      (L.foldl (fun t a => if c a then t.set (f a) TileType.Floor else t) t).get? j
        = some TileType.Floor := by
  induction L with
  | nil =>
    rintro t _ ⟨a, ha, _⟩
    exact absurd ha (List.not_mem_nil a)
  | cons a L ih =>
    rintro t hj ⟨b, hb, hbc, hbe⟩
    rw [List.foldl_cons]
    rcases List.mem_cons.mp hb with rfl | hbL
    · apply condfold_keeps_floor
      rw [if_pos hbc]
      subst hbe
      rw [List.get?_eq_getElem?, List.getElem?_set_self hj]
    · apply ih _ _ ⟨b, hbL, hbc, hbe⟩
      by_cases hc : c a
      · rw [if_pos hc, List.length_set]
        exact hj
      · rw [if_neg hc]
        exact hj

end SetFold

section SetFoldPlain

variable {α : Type} (f : α → Nat)

lemma setfold_length (L : List α) :
    ∀ t : List TileType,
      (L.foldl (fun t a => t.set (f a) TileType.Floor) t).length = t.length := by
  induction L with
  | nil => exact fun _ => rfl
  | cons a L ih =>
    intro t
    rw [List.foldl_cons, ih, List.length_set]

lemma setfold_get?_ne (j : Nat) (L : List α) :
    ∀ t : List TileType, (∀ a ∈ L, f a ≠ j) →
      (L.foldl (fun t a => t.set (f a) TileType.Floor) t).get? j = t.get? j := by
  induction L with
  | nil => exact fun _ _ => rfl
  | cons a L ih =>
    intro t hne
    rw [List.foldl_cons, ih _ (fun b hb => hne b (List.mem_cons_of_mem a hb)),
      List.get?_eq_getElem?, List.get?_eq_getElem?,
      List.getElem?_set_ne (hne a (List.mem_cons_self a L))]

lemma setfold_keeps_floor (j : Nat) (L : List α) :
    ∀ t : List TileType, t.get? j = some TileType.Floor →
      (L.foldl (fun t a => t.set (f a) TileType.Floor) t).get? j
        = some TileType.Floor := by
  induction L with
  | nil => exact fun _ h => h
  | cons a L ih =>
    intro t h
    rw [List.foldl_cons]
    apply ih
    by_cases he : f a = j
    · have hj : j < t.length := by
        rw [List.get?_eq_getElem?] at h
        exact (List.getElem?_eq_some.mp h).1
      subst he
      rw [List.get?_eq_getElem?, List.getElem?_set_self hj]
    · rw [List.get?_eq_getElem?, List.getElem?_set_ne he, ← List.get?_eq_getElem?]
      exact h

lemma setfold_hits (j : Nat) (L : List α) :
    ∀ t : List TileType, j < t.length → (∃ a ∈ L, f a = j) →
      (L.foldl (fun t a => t.set (f a) TileType.Floor) t).get? j
        = some TileType.Floor := by
  induction L with
  | nil =>
    rintro t _ ⟨a, ha, _⟩
    exact absurd ha (List.not_mem_nil a)
  | cons a L ih =>
    rintro t hj ⟨b, hb, hbe⟩
    rw [List.foldl_cons]
    rcases List.mem_cons.mp hb with rfl | hbL
    · apply setfold_keeps_floor
      subst hbe
      rw [List.get?_eq_getElem?, List.getElem?_set_self hj]
    · apply ih _ _ ⟨b, hbL, hbe⟩
      rw [List.length_set]
      exact hj

end SetFoldPlain

/-! Arithmetic facts about the machine-integer casts and `xy_idx`. -/

lemma usize_of_i32_eq_toNat {v : Int} (h0 : 0 ≤ v) (h1 : v < 2 ^ 64) :
    usize_of_i32 v = v.toNat := by
  unfold usize_of_i32
  rw [Int.emod_eq_of_lt h0 h1]

lemma i32_of_usize_eq {w : Nat} (h : w < 2 ^ 31) : i32_of_usize w = w := by
  unfold i32_of_usize
  have h1 : (w : Int) % 2 ^ 32 = w := Int.emod_eq_of_lt (by positivity) (by omega)
  rw [h1, if_pos (show (w : Int) < 2 ^ 31 by omega)]

lemma xy_idx_eq (m : Map) {x y : Int} (hx0 : 0 ≤ x) (hx1 : x < 2 ^ 64)
    (hy0 : 0 ≤ y) (hy1 : y < 2 ^ 64) (hW0 : 0 ≤ m.width) (hW1 : m.width < 2 ^ 64) :
    m.xy_idx x y = y.toNat * m.width.toNat + x.toNat := by
  unfold Map.xy_idx
  rw [usize_of_i32_eq_toNat hy0 hy1, usize_of_i32_eq_toNat hW0 hW1,
    usize_of_i32_eq_toNat hx0 hx1]

lemma get?_replicate {n j : Nat} {a : TileType} (h : j < n) :
    (List.replicate n a).get? j = some a := by
  rw [List.get?_eq_getElem?, List.getElem?_replicate, if_pos h]

/-! The border-wall invariant and per-operation preservation. -/



lemma center_bounds {r : Rect} (h : RoomIn r) :
    1 ≤ r.center.1 ∧ r.center.1 ≤ 78 ∧ 1 ≤ r.center.2 ∧ r.center.2 ≤ 48 := by
  obtain ⟨h1, h2, h3, h4, h5, h6⟩ := h
  have e1 : (r.x1 + r.x2).tdiv 2 = (r.x1 + r.x2) / 2 :=
    Int.tdiv_eq_ediv (by omega) (by omega)
  have e2 : (r.y1 + r.y2).tdiv 2 = (r.y1 + r.y2) / 2 :=
    Int.tdiv_eq_ediv (by omega) (by omega)
  unfold Rect.center
  dsimp only
  rw [e1, e2]
  refine ⟨by omega, by omega, by omega, by omega⟩

lemma xy_idx_80 {m : Map} (hW : m.width = 80) {x y : Int}
    (hx0 : 0 ≤ x) (hy0 : 0 ≤ y) (hx1 : x < 2 ^ 64) (hy1 : y < 2 ^ 64) :
    m.xy_idx x y = y.toNat * 80 + x.toNat := by
  rw [xy_idx_eq m hx0 hx1 hy0 hy1 (by rw [hW]; omega) (by rw [hW]; omega), hW]
  simp [Int.toNat_ofNat]

lemma new_borderWall (d : Int) : (Map.new d).borderWall := by
  intro x y hx0 hx1 hy0 hy1 _
  have hW : (Map.new d).width = 80 := rfl
  have hH : (Map.new d).height = 50 := rfl
  rw [hW] at hx1
  rw [hH] at hy1
  have hidx : (Map.new d).xy_idx x y = y.toNat * 80 + x.toNat :=
    xy_idx_80 hW hx0 hy0 (by omega) (by omega)
  show (List.replicate (80 * 50) TileType.Wall).get? ((Map.new d).xy_idx x y)
    = some TileType.Wall
  rw [hidx]
  exact get?_replicate (by omega)

lemma apply_room_borderWall {m : Map} {r : Rect}
    (hW : m.width = 80) (hH : m.height = 50) (hr : RoomIn r)
    (hb : m.borderWall) : (m.apply_room_to_map r).borderWall := by
  intro x y hx0 hx1 hy0 hy1 hbord
  obtain ⟨-, hw, hh, -, -, -⟩ := apply_room_fields m r
  rw [hw, hW] at hx1
  rw [hh, hH] at hy1
  rw [hw, hW, hh, hH] at hbord
  have hxy : (m.apply_room_to_map r).xy_idx x y = m.xy_idx x y := by
    unfold Map.xy_idx
    rw [hw]
  have hIxy : m.xy_idx x y = y.toNat * 80 + x.toNat :=
    xy_idx_80 hW hx0 hy0 (by omega) (by omega)
  rw [hxy, apply_room_tiles]
  have hcond : ∀ p ∈ r.spaces, m.xy_idx p.1 p.2 ≠ m.xy_idx x y := by
    intro p hp
    obtain ⟨hp1, hp2, hp3, hp4⟩ := mem_spaces.mp hp
    obtain ⟨hr1, hr2, hr3, hr4, hr5, hr6⟩ := hr
    have hIp : m.xy_idx p.1 p.2 = p.2.toNat * 80 + p.1.toNat :=
      xy_idx_80 hW (by omega) (by omega) (by omega) (by omega)
    rw [hIp, hIxy]
    omega
  rw [setfold_get?_ne _ _ _ _ hcond]
  refine hb x y hx0 (by rw [hW]; omega) hy0 (by rw [hH]; omega) ?_
  rw [hW, hH]
  omega

lemma apply_horizontal_tunnel_borderWall {m : Map} {cx1 cx2 cy : Int}
    (hW : m.width = 80) (hH : m.height = 50)
    (hc1 : 1 ≤ cx1) (hc2 : cx1 ≤ 78) (hc3 : 1 ≤ cx2) (hc4 : cx2 ≤ 78)
    (hc5 : 1 ≤ cy) (hc6 : cy ≤ 48)
    (hb : m.borderWall) : (m.apply_horizontal_tunnel cx1 cx2 cy).borderWall := by
  intro x y hx0 hx1 hy0 hy1 hbord
  obtain ⟨-, hw, hh, -, -, -⟩ := apply_horizontal_tunnel_fields m cx1 cx2 cy
  rw [hw, hW] at hx1
  rw [hh, hH] at hy1
  rw [hw, hW, hh, hH] at hbord
  have hxy : (m.apply_horizontal_tunnel cx1 cx2 cy).xy_idx x y = m.xy_idx x y := by
    unfold Map.xy_idx
    rw [hw]
  have hIxy : m.xy_idx x y = y.toNat * 80 + x.toNat :=
    xy_idx_80 hW hx0 hy0 (by omega) (by omega)
  rw [hxy, apply_horizontal_tunnel_tiles]
  have hcond : ∀ a ∈ intRange (min cx1 cx2) (max cx1 cx2),
      (0 < m.xy_idx a cy ∧
        m.xy_idx a cy < usize_of_i32 m.width * usize_of_i32 m.height) →
      m.xy_idx a cy ≠ m.xy_idx x y := by
    intro a ha _
    obtain ⟨ha1, ha2⟩ := mem_intRange.mp ha
    have hIa : m.xy_idx a cy = cy.toNat * 80 + a.toNat :=
      xy_idx_80 hW (by omega) (by omega) (by omega) (by omega)
    rw [hIa, hIxy]
    omega
  rw [condfold_get?_ne _ _ _ _ _ hcond]
  refine hb x y hx0 (by rw [hW]; omega) hy0 (by rw [hH]; omega) ?_
  rw [hW, hH]
  omega

lemma apply_vertical_tunnel_borderWall {m : Map} {cy1 cy2 cx : Int}
    (hW : m.width = 80) (hH : m.height = 50)
    (hc1 : 1 ≤ cy1) (hc2 : cy1 ≤ 48) (hc3 : 1 ≤ cy2) (hc4 : cy2 ≤ 48)
    (hc5 : 1 ≤ cx) (hc6 : cx ≤ 78)
    (hb : m.borderWall) : (m.apply_vertical_tunnel cy1 cy2 cx).borderWall := by
  intro x y hx0 hx1 hy0 hy1 hbord
  obtain ⟨-, hw, hh, -, -, -⟩ := apply_vertical_tunnel_fields m cy1 cy2 cx
  rw [hw, hW] at hx1
  rw [hh, hH] at hy1
  rw [hw, hW, hh, hH] at hbord
  have hxy : (m.apply_vertical_tunnel cy1 cy2 cx).xy_idx x y = m.xy_idx x y := by
    unfold Map.xy_idx
    rw [hw]
  have hIxy : m.xy_idx x y = y.toNat * 80 + x.toNat :=
    xy_idx_80 hW hx0 hy0 (by omega) (by omega)
  rw [hxy, apply_vertical_tunnel_tiles]
  have hcond : ∀ a ∈ intRange (min cy1 cy2) (max cy1 cy2),
      (0 < m.xy_idx cx a ∧
        m.xy_idx cx a < usize_of_i32 m.width * usize_of_i32 m.height) →
      m.xy_idx cx a ≠ m.xy_idx x y := by
    intro a ha _
    obtain ⟨ha1, ha2⟩ := mem_intRange.mp ha
    have hIa : m.xy_idx cx a = a.toNat * 80 + cx.toNat :=
      xy_idx_80 hW (by omega) (by omega) (by omega) (by omega)
    rw [hIa, hIxy]
    omega
  rw [condfold_get?_ne _ _ _ _ _ hcond]
  refine hb x y hx0 (by rw [hW]; omega) hy0 (by rw [hH]; omega) ?_
  rw [hW, hH]
  omega

lemma apply_room_tiles_length (m : Map) (r : Rect) :
    (m.apply_room_to_map r).tiles.length = m.tiles.length := by
  rw [apply_room_tiles]
  exact setfold_length _ _ _

lemma apply_horizontal_tunnel_tiles_length (m : Map) (x1 x2 y : Int) :
    (m.apply_horizontal_tunnel x1 x2 y).tiles.length = m.tiles.length := by
  rw [apply_horizontal_tunnel_tiles]
  exact condfold_length _ _ _ _

lemma apply_vertical_tunnel_tiles_length (m : Map) (y1 y2 x : Int) :
    (m.apply_vertical_tunnel y1 y2 x).tiles.length = m.tiles.length := by
  rw [apply_vertical_tunnel_tiles]
  exact condfold_length _ _ _ _

/-! Bounds on the modelled random draws and on every candidate room. -/

lemma range_bounds (lo hi : Int) (g : Rng) (h : lo ≤ hi) :
    lo ≤ (Rng.range lo hi g).1 ∧ (Rng.range lo hi g).1 ≤ hi := by
  unfold Rng.range
  dsimp only
  have h1 : 0 ≤ (g.next.1 : Int) % (hi - lo + 1) := Int.emod_nonneg _ (by omega)
  have h2 : (g.next.1 : Int) % (hi - lo + 1) < hi - lo + 1 :=
    Int.emod_lt_of_pos _ (by omega)
  omega

lemma roll_dice_one_eq (die : Int) (g : Rng) :
    (Rng.roll_dice 1 die g).1 = 1 + (g.next.1 : Int) % die := by
  show (Rng.roll_dice (Nat.succ 0) die g).1 = _
  unfold Rng.roll_dice
  unfold Rng.roll_dice
  dsimp only
  omega

lemma roll_dice_one_bounds (die : Int) (g : Rng) (h : 0 < die) :
    1 ≤ (Rng.roll_dice 1 die g).1 ∧ (Rng.roll_dice 1 die g).1 ≤ die := by
  rw [roll_dice_one_eq]
  have h1 : 0 ≤ (g.next.1 : Int) % die := Int.emod_nonneg _ (by omega)
  have h2 : (g.next.1 : Int) % die < die := Int.emod_lt_of_pos _ h
  omega

lemma rc_candidate_bounds {m : Map} (hW : m.width = 80) (hH : m.height = 50)
    (g : Rng) :
    6 ≤ (m.rc_candidate g).1.x2 - (m.rc_candidate g).1.x1 ∧
      (m.rc_candidate g).1.x2 - (m.rc_candidate g).1.x1 ≤ 10 ∧
      6 ≤ (m.rc_candidate g).1.y2 - (m.rc_candidate g).1.y1 ∧
      (m.rc_candidate g).1.y2 - (m.rc_candidate g).1.y1 ≤ 10 ∧
      0 ≤ (m.rc_candidate g).1.x1 ∧ (m.rc_candidate g).1.x2 ≤ 78 ∧
      0 ≤ (m.rc_candidate g).1.y1 ∧ (m.rc_candidate g).1.y2 ≤ 48 := by
  have hw := range_bounds 6 10 g (by omega)
  have hh := range_bounds 6 10 (Rng.range 6 10 g).2 (by omega)
  have hx := roll_dice_one_bounds (m.width - (Rng.range 6 10 g).1 - 1)
    (Rng.range 6 10 (Rng.range 6 10 g).2).2 (by rw [hW]; omega)
  have hy := roll_dice_one_bounds
    (m.height - (Rng.range 6 10 (Rng.range 6 10 g).2).1 - 1)
    (Rng.roll_dice 1 (m.width - (Rng.range 6 10 g).1 - 1)
      (Rng.range 6 10 (Rng.range 6 10 g).2).2).2 (by rw [hH]; omega)
  unfold Map.rc_candidate
  dsimp only
  unfold Rect.new
  dsimp only
  rw [hW, hH]
  rw [hW] at hx hy
  rw [hH] at hy
  omega

lemma rc_candidate_RoomIn {m : Map} (hW : m.width = 80) (hH : m.height = 50)
    (g : Rng) : RoomIn (m.rc_candidate g).1 := by
  obtain ⟨h1, h2, h3, h4, h5, h6, h7, h8⟩ := rc_candidate_bounds hW hH g
  exact ⟨by omega, by omega, by omega, by omega, by omega, by omega⟩

/-! Characterisation of one loop iteration of the rooms-and-corridors
algorithm. -/

lemma mem_of_getLast?_eq_some {l : List Rect} {a : Rect}
    (h : l.getLast? = some a) : a ∈ l := by
  rw [List.getLast?_eq_getElem?] at h
  exact List.getElem?_mem h

lemma rc_step_main (st : Map × Rng) :
    (st.1.rooms.all (fun o => !((st.1.rc_candidate st.2).1.intersect o)) = false ∧
      (Map.rc_step st).1 = st.1) ∨
    (∃ m2 : Map,
      (Map.rc_step st).1
          = { m2 with rooms := m2.rooms ++ [(st.1.rc_candidate st.2).1] } ∧
      st.1.rooms.all (fun o => !((st.1.rc_candidate st.2).1.intersect o)) = true ∧
      m2.rooms = st.1.rooms ∧ m2.width = st.1.width ∧ m2.height = st.1.height ∧
      m2.revealed_tiles = st.1.revealed_tiles ∧
      m2.visible_tiles = st.1.visible_tiles ∧ m2.depth = st.1.depth ∧
      m2.tiles.length = st.1.tiles.length ∧
      (st.1.width = 80 → st.1.height = 50 → (∀ r ∈ st.1.rooms, RoomIn r) →
        st.1.borderWall → m2.borderWall)) := by
  by_cases hok :
    st.1.rooms.all (fun o => !((st.1.rc_candidate st.2).1.intersect o)) = true
  case neg =>
    left
    rw [Bool.not_eq_true] at hok
    refine ⟨hok, ?_⟩
    simp only [Map.rc_step, hok, Bool.false_eq_true, if_false]
  case pos =>
    right
    have hA := apply_room_fields st.1 (st.1.rc_candidate st.2).1
    cases hlast :
        (st.1.apply_room_to_map (st.1.rc_candidate st.2).1).rooms.getLast? with
    | none =>
      refine ⟨st.1.apply_room_to_map (st.1.rc_candidate st.2).1, ?_, hok,
        hA.1, hA.2.1, hA.2.2.1, hA.2.2.2.1, hA.2.2.2.2.1, hA.2.2.2.2.2,
        apply_room_tiles_length _ _, ?_⟩
      · simp only [Map.rc_step, hok, if_true, hlast]
      · intro hW hH hrooms hb
        exact apply_room_borderWall hW hH (rc_candidate_RoomIn hW hH st.2) hb
    | some prev =>
      have hprev : prev ∈ st.1.rooms := by
        rw [hA.1] at hlast
        exact mem_of_getLast?_eq_some hlast
      by_cases hcoin :
          ((Rng.range 0 2 (st.1.rc_candidate st.2).2).1 == 1) = true
      · -- horizontal first, then vertical
        have hB := apply_horizontal_tunnel_fields
          (st.1.apply_room_to_map (st.1.rc_candidate st.2).1)
          prev.center.1 (st.1.rc_candidate st.2).1.center.1 prev.center.2
        have hC := apply_vertical_tunnel_fields
          ((st.1.apply_room_to_map (st.1.rc_candidate st.2).1).apply_horizontal_tunnel
            prev.center.1 (st.1.rc_candidate st.2).1.center.1 prev.center.2)
          prev.center.2 (st.1.rc_candidate st.2).1.center.2
          (st.1.rc_candidate st.2).1.center.1
        refine ⟨_, ?_, hok,
          (hC.1.trans hB.1).trans hA.1,
          (hC.2.1.trans hB.2.1).trans hA.2.1,
          (hC.2.2.1.trans hB.2.2.1).trans hA.2.2.1,
          (hC.2.2.2.1.trans hB.2.2.2.1).trans hA.2.2.2.1,
          (hC.2.2.2.2.1.trans hB.2.2.2.2.1).trans hA.2.2.2.2.1,
          (hC.2.2.2.2.2.trans hB.2.2.2.2.2).trans hA.2.2.2.2.2,
          ((apply_vertical_tunnel_tiles_length _ _ _ _).trans
            (apply_horizontal_tunnel_tiles_length _ _ _ _)).trans
            (apply_room_tiles_length _ _), ?_⟩
        · simp only [Map.rc_step, hok, if_true, hlast, hcoin]
        · intro hW hH hrooms hb
          have hcC := center_bounds (rc_candidate_RoomIn hW hH st.2)
          have hcP := center_bounds (hrooms prev hprev)
          have hW1 : (st.1.apply_room_to_map (st.1.rc_candidate st.2).1).width = 80 := by
            rw [hA.2.1, hW]
          have hH1 : (st.1.apply_room_to_map (st.1.rc_candidate st.2).1).height = 50 := by
            rw [hA.2.2.1, hH]
          have hb1 :=
            apply_room_borderWall hW hH (rc_candidate_RoomIn hW hH st.2) hb
          have hb2 := apply_horizontal_tunnel_borderWall hW1 hH1
            hcP.1 hcP.2.1 hcC.1 hcC.2.1 hcP.2.2.1 hcP.2.2.2 hb1
          have hW2 := hB.2.1.trans hW1
          have hH2 := hB.2.2.1.trans hH1
          exact apply_vertical_tunnel_borderWall hW2 hH2
            hcP.2.2.1 hcP.2.2.2 hcC.2.2.1 hcC.2.2.2 hcC.1 hcC.2.1 hb2
      · -- vertical first, then horizontal
        have hB := apply_vertical_tunnel_fields
          (st.1.apply_room_to_map (st.1.rc_candidate st.2).1)
          prev.center.2 (st.1.rc_candidate st.2).1.center.2 prev.center.1
        have hC := apply_horizontal_tunnel_fields
          ((st.1.apply_room_to_map (st.1.rc_candidate st.2).1).apply_vertical_tunnel
            prev.center.2 (st.1.rc_candidate st.2).1.center.2 prev.center.1)
          prev.center.1 (st.1.rc_candidate st.2).1.center.1
          (st.1.rc_candidate st.2).1.center.2
        refine ⟨_, ?_, hok,
          (hC.1.trans hB.1).trans hA.1,
          (hC.2.1.trans hB.2.1).trans hA.2.1,
          (hC.2.2.1.trans hB.2.2.1).trans hA.2.2.1,
          (hC.2.2.2.1.trans hB.2.2.2.1).trans hA.2.2.2.1,
          (hC.2.2.2.2.1.trans hB.2.2.2.2.1).trans hA.2.2.2.2.1,
          (hC.2.2.2.2.2.trans hB.2.2.2.2.2).trans hA.2.2.2.2.2,
          ((apply_horizontal_tunnel_tiles_length _ _ _ _).trans
            (apply_vertical_tunnel_tiles_length _ _ _ _)).trans
            (apply_room_tiles_length _ _), ?_⟩
        · rw [Bool.not_eq_true] at hcoin
          simp only [Map.rc_step, hok, if_true, hlast, hcoin, Bool.false_eq_true,
            if_false]
        · intro hW hH hrooms hb
          have hcC := center_bounds (rc_candidate_RoomIn hW hH st.2)
          have hcP := center_bounds (hrooms prev hprev)
          have hW1 : (st.1.apply_room_to_map (st.1.rc_candidate st.2).1).width = 80 := by
            rw [hA.2.1, hW]
          have hH1 : (st.1.apply_room_to_map (st.1.rc_candidate st.2).1).height = 50 := by
            rw [hA.2.2.1, hH]
          have hb1 :=
            apply_room_borderWall hW hH (rc_candidate_RoomIn hW hH st.2) hb
          have hb2 := apply_vertical_tunnel_borderWall hW1 hH1
            hcP.2.2.1 hcP.2.2.2 hcC.2.2.1 hcC.2.2.2 hcP.1 hcP.2.1 hb1
          have hW2 := hB.2.1.trans hW1
          have hH2 := hB.2.2.1.trans hH1
          exact apply_horizontal_tunnel_borderWall hW2 hH2
            hcP.1 hcP.2.1 hcC.1 hcC.2.1 hcC.2.2.1 hcC.2.2.2 hb2

/-! The 30-iteration loop as function iteration, and loop invariants. -/

lemma fold_range_eq_iterate (n : Nat) (st : Map × Rng) :
    (List.range n).foldl (fun s _ => Map.rc_step s) st = Map.rc_step^[n] st := by
  induction n with
  | zero => rfl
  | succ n ih =>
    rw [List.range_succ, List.foldl_append, ih, List.foldl_cons, List.foldl_nil,
      Function.iterate_succ_apply']

lemma rcLoop_eq (d : Int) (g : Rng) :
    Map.new_map_rooms_and_corridors d g
      = (Map.rc_step^[30] (Map.new_with_dimensions 80 50 d, g)).1 := by
  unfold Map.new_map_rooms_and_corridors
  rw [fold_range_eq_iterate]

lemma iterate_inv (P : Map × Rng → Prop)
    (hP : ∀ st, P st → P (Map.rc_step st)) :
    ∀ (n : Nat) (st : Map × Rng), P st → P (Map.rc_step^[n] st) := by
  intro n
  induction n with
  | zero => exact fun st h => h
  | succ n ih =>
    intro st h
    rw [Function.iterate_succ_apply]
    exact ih _ (hP st h)


lemma rc_step_RCInv {st : Map × Rng} (h : RCInv st) : RCInv (Map.rc_step st) := by
  obtain ⟨hW, hH, hT, hR, hV, hrooms, hb⟩ := h
  rcases rc_step_main st with ⟨-, heq⟩ |
    ⟨m2, heq, hok, hrooms2, hw2, hh2, hrev2, hvis2, hdep2, hlen2, hbi⟩
  · unfold RCInv
    rw [heq]
    exact ⟨hW, hH, hT, hR, hV, hrooms, hb⟩
  · unfold RCInv
    rw [heq]
    refine ⟨?_, ?_, ?_, ?_, ?_, ?_, ?_⟩
    · show m2.width = 80
      rw [hw2]
      exact hW
    · show m2.height = 50
      rw [hh2]
      exact hH
    · show m2.tiles.length = 4000
      rw [hlen2]
      exact hT
    · show m2.revealed_tiles.length = 4000
      rw [hrev2]
      exact hR
    · show m2.visible_tiles.length = 4000
      rw [hvis2]
      exact hV
    · show ∀ r ∈ m2.rooms ++ [(st.1.rc_candidate st.2).1], RoomIn r
      intro r hr
      rcases List.mem_append.mp hr with hro | hrn
      · rw [hrooms2] at hro
        exact hrooms r hro
      · rw [List.mem_singleton] at hrn
        subst hrn
        exact rc_candidate_RoomIn hW hH st.2
    · show m2.borderWall
      exact hbi hW hH hrooms hb

lemma borderWall_of_all_wall {m : Map} (hW : m.width = 80) (hH : m.height = 50)
    (ht : m.tiles = List.replicate 4000 TileType.Wall) : m.borderWall := by
  intro x y hx0 hx1 hy0 hy1 _
  rw [hW] at hx1
  rw [hH] at hy1
  rw [ht, xy_idx_80 hW hx0 hy0 (by omega) (by omega)]
  exact get?_replicate (by omega)

lemma rcInv_base (d : Int) (g : Rng) :
    RCInv (Map.new_with_dimensions 80 50 d, g) := by
  have hW : (Map.new_with_dimensions 80 50 d).width = 80 := by
    show i32_of_usize 80 = 80
    rw [i32_of_usize_eq (by norm_num)]
    norm_num
  have hH : (Map.new_with_dimensions 80 50 d).height = 50 := by
    show i32_of_usize 50 = 50
    rw [i32_of_usize_eq (by norm_num)]
    norm_num
  refine ⟨hW, hH, ?_, ?_, ?_, ?_, ?_⟩
  · show (List.replicate (80 * 50) TileType.Wall).length = 4000
    rw [List.length_replicate]
  · show (List.replicate (80 * 50) false).length = 4000
    rw [List.length_replicate]
  · show (List.replicate (80 * 50) false).length = 4000
    rw [List.length_replicate]
  · intro r hr
    cases hr
  · exact borderWall_of_all_wall hW hH rfl

lemma rc_final_inv (d : Int) (g : Rng) :
    RCInv (Map.rc_step^[30] (Map.new_with_dimensions 80 50 d, g)) :=
  iterate_inv RCInv (fun _ h => rc_step_RCInv h) 30 _ (rcInv_base d g)

/-! Rooms of the rooms-and-corridors loop: growth and pairwise overlap. -/

lemma rc_step_rooms_grow (st : Map × Rng) :
    ∃ t : List Rect, (Map.rc_step st).1.rooms = st.1.rooms ++ t := by
  rcases rc_step_main st with ⟨-, heq⟩ |
    ⟨m2, heq, -, hrooms2, -, -, -, -, -, -, -⟩
  · exact ⟨[], by rw [heq, List.append_nil]⟩
  · refine ⟨[(st.1.rc_candidate st.2).1], ?_⟩
    rw [heq]
    show m2.rooms ++ _ = _
    rw [hrooms2]

lemma iterate_rooms_grow (n : Nat) (st : Map × Rng) :
    ∃ t : List Rect, (Map.rc_step^[n] st).1.rooms = st.1.rooms ++ t := by
  induction n generalizing st with
  | zero => exact ⟨[], (List.append_nil _).symm⟩
  | succ n ih =>
    rw [Function.iterate_succ_apply]
    obtain ⟨t1, h1⟩ := rc_step_rooms_grow st
    obtain ⟨t2, h2⟩ := ih (Map.rc_step st)
    exact ⟨t1 ++ t2, by rw [h2, h1, List.append_assoc]⟩

lemma rc_step_of_empty_rooms {st : Map × Rng} (he : st.1.rooms = []) :
    (Map.rc_step st).1.rooms = [(st.1.rc_candidate st.2).1] := by
  rcases rc_step_main st with ⟨hokf, -⟩ |
    ⟨m2, heq, -, hrooms2, -, -, -, -, -, -, -⟩
  · rw [he] at hokf
    simp at hokf
  · rw [heq]
    show m2.rooms ++ _ = _
    rw [hrooms2, he, List.nil_append]


lemma rc_step_RoomsOverlap {st : Map × Rng} (h : RoomsOverlap st) :
    RoomsOverlap (Map.rc_step st) := by
  rcases rc_step_main st with ⟨-, heq⟩ |
    ⟨m2, heq, hok, hrooms2, -, -, -, -, -, -, -⟩
  · unfold RoomsOverlap
    rw [heq]
    exact h
  · unfold RoomsOverlap
    rw [heq]
    show List.Pairwise _ (m2.rooms ++ [(st.1.rc_candidate st.2).1])
    rw [hrooms2, List.pairwise_append]
    refine ⟨h, List.pairwise_singleton _ _, ?_⟩
    intro a ha b hb
    rw [List.mem_singleton] at hb
    subst hb
    have hall := List.all_eq_true.mp hok a ha
    rw [Bool.not_eq_true'] at hall
    obtain ⟨p, hp1, hp2⟩ := intersect_eq_false_iff.mp hall
    exact ⟨p, hp2, hp1⟩

/-! The all-open map: rooms, fields and full tile characterisation. -/

lemma all_open_def (d : Int) :
    Map.new_map_all_open d
      = { (Map.new d).apply_room_to_map (Rect.new 0 0 78 48) with
          rooms := ((Map.new d).apply_room_to_map (Rect.new 0 0 78 48)).rooms
            ++ [Rect.new 0 0 78 48] } := rfl

lemma all_open_rooms (d : Int) :
    (Map.new_map_all_open d).rooms = [Rect.new 0 0 78 48] := by
  rw [all_open_def]
  dsimp only
  rw [(apply_room_fields (Map.new d) (Rect.new 0 0 78 48)).1]
  rfl

lemma all_open_width (d : Int) : (Map.new_map_all_open d).width = 80 := by
  rw [all_open_def]
  dsimp only
  rw [(apply_room_fields (Map.new d) (Rect.new 0 0 78 48)).2.1]
  rfl

lemma all_open_height (d : Int) : (Map.new_map_all_open d).height = 50 := by
  rw [all_open_def]
  dsimp only
  rw [(apply_room_fields (Map.new d) (Rect.new 0 0 78 48)).2.2.1]
  rfl

lemma all_open_tiles (d : Int) :
    (Map.new_map_all_open d).tiles
      = ((Map.new d).apply_room_to_map (Rect.new 0 0 78 48)).tiles := by
  rw [all_open_def]

lemma all_open_revealed (d : Int) :
    (Map.new_map_all_open d).revealed_tiles
      = List.replicate (80 * 50) false := by
  rw [all_open_def]
  dsimp only
  rw [(apply_room_fields (Map.new d) (Rect.new 0 0 78 48)).2.2.2.1]
  rfl

lemma all_open_visible (d : Int) :
    (Map.new_map_all_open d).visible_tiles
      = List.replicate (80 * 50) false := by
  rw [all_open_def]
  dsimp only
  rw [(apply_room_fields (Map.new d) (Rect.new 0 0 78 48)).2.2.2.2.1]
  rfl

lemma all_open_tiles_length (d : Int) :
    (Map.new_map_all_open d).tiles.length = 4000 := by
  rw [all_open_tiles, apply_room_tiles_length]
  show (List.replicate (80 * 50) TileType.Wall).length = 4000
  rw [List.length_replicate]

lemma all_open_xy_idx (d : Int) (x y : Int) :
    (Map.new_map_all_open d).xy_idx x y = (Map.new d).xy_idx x y := by
  unfold Map.xy_idx
  rw [all_open_width d]
  rfl

lemma all_open_tiles_get (d : Int) {x y : Int} (hx0 : 0 ≤ x) (hx1 : x < 80)
    (hy0 : 0 ≤ y) (hy1 : y < 50) :
    (Map.new_map_all_open d).tiles.get? ((Map.new_map_all_open d).xy_idx x y)
      = some (if 1 ≤ x ∧ x ≤ 78 ∧ 1 ≤ y ∧ y ≤ 48 then TileType.Floor
          else TileType.Wall) := by
  have hIxy : (Map.new_map_all_open d).xy_idx x y = y.toNat * 80 + x.toNat :=
    xy_idx_80 (all_open_width d) hx0 hy0 (by omega) (by omega)
  have hIxy0 : (Map.new d).xy_idx x y = y.toNat * 80 + x.toNat :=
    xy_idx_80 rfl hx0 hy0 (by omega) (by omega)
  rw [hIxy, all_open_tiles, apply_room_tiles]
  have hsp : ∀ p : Int × Int, p ∈ (Rect.new 0 0 78 48).spaces ↔
      1 ≤ p.1 ∧ p.1 ≤ 78 ∧ 1 ≤ p.2 ∧ p.2 ≤ 48 := by
    intro p
    rw [mem_spaces]
    have e1 : (Rect.new 0 0 78 48).x1 = 0 := rfl
    have e2 : (Rect.new 0 0 78 48).x2 = 78 := rfl
    have e3 : (Rect.new 0 0 78 48).y1 = 0 := rfl
    have e4 : (Rect.new 0 0 78 48).y2 = 48 := rfl
    rw [e1, e2, e3, e4]
    omega
  by_cases hin : 1 ≤ x ∧ x ≤ 78 ∧ 1 ≤ y ∧ y ≤ 48
  · rw [if_pos hin]
    refine setfold_hits _ _ _ _ ?_ ⟨(x, y), (hsp (x, y)).mpr hin, ?_⟩
    · show y.toNat * 80 + x.toNat
        < (List.replicate (80 * 50) TileType.Wall).length
      rw [List.length_replicate]
      omega
    · exact hIxy0
  · rw [if_neg hin]
    have hne : ∀ p ∈ (Rect.new 0 0 78 48).spaces,
        (Map.new d).xy_idx p.1 p.2 ≠ y.toNat * 80 + x.toNat := by
      intro p hp
      obtain ⟨hp1, hp2, hp3, hp4⟩ := (hsp p).mp hp
      have hIp : (Map.new d).xy_idx p.1 p.2 = p.2.toNat * 80 + p.1.toNat :=
        xy_idx_80 rfl (by omega) (by omega) (by omega) (by omega)
      rw [hIp]
      omega
    rw [setfold_get?_ne _ _ _ _ hne]
    exact get?_replicate (by omega)

lemma all_open_borderWall (d : Int) : (Map.new_map_all_open d).borderWall := by
  intro x y hx0 hx1 hy0 hy1 hbord
  rw [all_open_width d] at hx1 hbord
  rw [all_open_height d] at hy1 hbord
  rw [all_open_tiles_get d hx0 hx1 hy0 hy1, if_neg (by omega)]

/-! Facts about the finished rooms-and-corridors map. -/

lemma nwd_width (w h : Nat) (d : Int) (hw : w < 2 ^ 31) :
    (Map.new_with_dimensions w h d).width = w := by
  simp only [Map.new_with_dimensions]
  exact i32_of_usize_eq hw

lemma nwd_height (w h : Nat) (d : Int) (hh : h < 2 ^ 31) :
    (Map.new_with_dimensions w h d).height = h := by
  simp only [Map.new_with_dimensions]
  exact i32_of_usize_eq hh

lemma nwd_lengths (w h : Nat) (d : Int) :
    (Map.new_with_dimensions w h d).tiles.length = w * h ∧
      (Map.new_with_dimensions w h d).revealed_tiles.length = w * h ∧
      (Map.new_with_dimensions w h d).visible_tiles.length = w * h := by
  refine ⟨?_, ?_, ?_⟩ <;> simp only [Map.new_with_dimensions, List.length_replicate]

lemma rc_inv_final (d : Int) (g : Rng) :
    (Map.new_map_rooms_and_corridors d g).width = 80 ∧
      (Map.new_map_rooms_and_corridors d g).height = 50 ∧
      (Map.new_map_rooms_and_corridors d g).tiles.length = 4000 ∧
      (Map.new_map_rooms_and_corridors d g).revealed_tiles.length = 4000 ∧
      (Map.new_map_rooms_and_corridors d g).visible_tiles.length = 4000 ∧
      (∀ r ∈ (Map.new_map_rooms_and_corridors d g).rooms, RoomIn r) ∧
      (Map.new_map_rooms_and_corridors d g).borderWall := by
  have h := rc_final_inv d g
  rw [rcLoop_eq d g]
  exact h

lemma rc_rooms_pairwise (d : Int) (g : Rng) :
    List.Pairwise (fun a b => ∃ p : Int × Int, p ∈ a.spaces ∧ p ∈ b.spaces)
      (Map.new_map_rooms_and_corridors d g).rooms := by
  have hbase : RoomsOverlap (Map.new_with_dimensions 80 50 d, g) :=
    List.Pairwise.nil
  have h := iterate_inv RoomsOverlap (fun _ hh => rc_step_RoomsOverlap hh) 30
    (Map.new_with_dimensions 80 50 d, g) hbase
  rw [rcLoop_eq d g]
  exact h

lemma rc_rooms_first (d : Int) (g : Rng) :
    ∃ t : List Rect,
      (Map.new_map_rooms_and_corridors d g).rooms
        = ((Map.new_with_dimensions 80 50 d).rc_candidate g).1 :: t := by
  rw [rcLoop_eq d g]
  have h30 : Map.rc_step^[30] (Map.new_with_dimensions 80 50 d, g)
      = Map.rc_step^[29] (Map.rc_step (Map.new_with_dimensions 80 50 d, g)) := by
    rw [← Function.iterate_succ_apply]
  rw [h30]
  obtain ⟨t, ht⟩ :=
    iterate_rooms_grow 29 (Map.rc_step (Map.new_with_dimensions 80 50 d, g))
  rw [ht, rc_step_of_empty_rooms rfl]
  exact ⟨t, rfl⟩

/-! A concrete random stream on which the second accepted room overlaps the
first: draws 4 and 5 are 1 (candidate two is 7x7 at the same corner as the
6x6 candidate one), all other draws are 0. -/

set_option maxRecDepth 8000 in
lemma rc_two_steps_rooms :
    (Map.rc_step (Map.rc_step (Map.new_with_dimensions 80 50 0,
        (fun n => if n = 4 ∨ n = 5 then 1 else 0 : Rng)))).1.rooms
      = [Rect.new 0 0 6 6, Rect.new 0 0 7 7] := by
  rfl

lemma rc_overlap_rooms_concrete :
    (Map.new_map_rooms_and_corridors 0
        (fun n => if n = 4 ∨ n = 5 then 1 else 0 : Rng)).rooms.get? 0
      = some (Rect.new 0 0 6 6) ∧
    (Map.new_map_rooms_and_corridors 0
        (fun n => if n = 4 ∨ n = 5 then 1 else 0 : Rng)).rooms.get? 1
      = some (Rect.new 0 0 7 7) := by
  rw [rcLoop_eq]
  have h30 : Map.rc_step^[30] (Map.new_with_dimensions 80 50 0,
        (fun n => if n = 4 ∨ n = 5 then 1 else 0 : Rng))
      = Map.rc_step^[28] (Map.rc_step (Map.rc_step (Map.new_with_dimensions 80 50 0,
        (fun n => if n = 4 ∨ n = 5 then 1 else 0 : Rng)))) := by
    rw [← Function.iterate_succ_apply, ← Function.iterate_succ_apply]
  rw [h30]
  obtain ⟨t, ht⟩ := iterate_rooms_grow 28
    (Map.rc_step (Map.rc_step (Map.new_with_dimensions 80 50 0,
      (fun n => if n = 4 ∨ n = 5 then 1 else 0 : Rng))))
  rw [ht, rc_two_steps_rooms]
  constructor
  · rw [List.get?_eq_getElem?, List.getElem?_append_left (by norm_num)]
    rfl
  · rw [List.get?_eq_getElem?, List.getElem?_append_left (by norm_num)]
    rfl

/-! Claim theorems. -/

/-- Claim C1: for every depth and every random stream, each of the three
generation algorithms (`Map::new`, `Map::new_map_all_open`,
`Map::new_map_rooms_and_corridors`) returns a `Map` in which every border
cell (`x = 0`, `x = width-1`, `y = 0`, `y = height-1`) is `TileType::Wall`. -/
theorem claim_C1 (d : Int) :
    (Map.new d).borderWall ∧ (Map.new_map_all_open d).borderWall ∧
      ∀ g : Rng, (Map.new_map_rooms_and_corridors d g).borderWall :=
  ⟨new_borderWall d, all_open_borderWall d,
    fun g => (rc_inv_final d g).2.2.2.2.2.2⟩

/-- Concrete instantiation of C1 at depth 0: corner and edge cells of each
algorithm's map are `Wall`. -/
theorem claim_C1_witness :
    (Map.new 0).tiles.get? ((Map.new 0).xy_idx 0 0) = some TileType.Wall ∧
    (Map.new_map_all_open 0).tiles.get?
        ((Map.new_map_all_open 0).xy_idx 79 0) = some TileType.Wall ∧
    (Map.new_map_rooms_and_corridors 0 (fun _ => 0)).tiles.get?
        ((Map.new_map_rooms_and_corridors 0 (fun _ => 0)).xy_idx 0 49)
      = some TileType.Wall := by
  refine ⟨?_, ?_, ?_⟩
  · exact (claim_C1 0).1 0 0 (by decide) (by decide) (by decide) (by decide)
      (Or.inl rfl)
  · refine (claim_C1 0).2.1 79 0 (by decide) ?_ (by decide) ?_ ?_
    · rw [all_open_width]
      decide
    · rw [all_open_height]
      decide
    · right
      left
      rw [all_open_width]
      decide
  · refine (claim_C1 0).2.2 (fun _ => 0) 0 49 (by decide) ?_ (by decide) ?_ ?_
    · rw [(rc_inv_final 0 (fun _ => 0)).1]
      decide
    · rw [(rc_inv_final 0 (fun _ => 0)).2.1]
      decide
    · right
      right
      right
      rw [(rc_inv_final 0 (fun _ => 0)).2.1]
      decide

/-- Claim C2 counterexample: on the concrete stream whose draws 4 and 5 are
1 and all others 0, the produced map's first two rooms are distinct rects
that both occupy cell (1, 1) — the claimed pairwise disjointness of
accepted rooms fails (the inverted `intersect` accepts exactly the
overlapping candidates). -/
theorem claim_C2_counterexample :
    (Map.new_map_rooms_and_corridors 0
        (fun n => if n = 4 ∨ n = 5 then 1 else 0 : Rng)).rooms.get? 0
      = some (Rect.new 0 0 6 6) ∧
    (Map.new_map_rooms_and_corridors 0
        (fun n => if n = 4 ∨ n = 5 then 1 else 0 : Rng)).rooms.get? 1
      = some (Rect.new 0 0 7 7) ∧
    Rect.new 0 0 6 6 ≠ Rect.new 0 0 7 7 ∧
    ((1, 1) : Int × Int) ∈ (Rect.new 0 0 6 6).spaces ∧
    ((1, 1) : Int × Int) ∈ (Rect.new 0 0 7 7).spaces :=
  ⟨rc_overlap_rooms_concrete.1, rc_overlap_rooms_concrete.2, by decide,
    by decide, by decide⟩

/-- Claim C2 (amended): for every random stream, any two rooms in the list
built by `Map::new_map_rooms_and_corridors` SHARE at least one occupied
cell — a candidate is accepted exactly when it overlaps every previously
accepted room, because the `intersect` predicate is inverted. -/
theorem claim_C2_amended (d : Int) (g : Rng) :
    List.Pairwise (fun a b => ∃ p : Int × Int, p ∈ a.spaces ∧ p ∈ b.spaces)
      (Map.new_map_rooms_and_corridors d g).rooms :=
  rc_rooms_pairwise d g

/-- Claim C3: `a.intersect(b)` returns `true` exactly when the count of
cells occurring in both `a.spaces()` and `b.spaces()` is zero, and returns
`false` whenever the two rooms share at least one occupied cell. -/
theorem claim_C3 (a b : Rect) :
    (a.intersect b = true ↔
      (a.spaces.filter (fun p => decide (p ∈ b.spaces))).length = 0) ∧
    (a.intersect b = true ↔ ∀ p : Int × Int, ¬(p ∈ a.spaces ∧ p ∈ b.spaces)) ∧
    (∀ p : Int × Int, p ∈ a.spaces → p ∈ b.spaces → a.intersect b = false) := by
  have hfe : a.spaces.filter (fun p => b.spaces.contains p)
      = a.spaces.filter (fun p => decide (p ∈ b.spaces)) :=
    List.filter_congr (fun p _ => contains_eq_decide_mem)
  refine ⟨?_, intersect_eq_true_iff, ?_⟩
  · unfold Rect.intersect
    rw [hfe, beq_iff_eq]
  · intro p hpa hpb
    exact intersect_eq_false_iff.mpr ⟨p, hpa, hpb⟩

/-- Concrete instantiation of C3: two overlapping rects test as
`intersect = false`. -/
theorem claim_C3_witness :
    (Rect.new 0 0 6 6).intersect (Rect.new 0 0 7 7) = false :=
  (claim_C3 (Rect.new 0 0 6 6) (Rect.new 0 0 7 7)).2.2 (1, 1) (by decide)
    (by decide)

/-- Claim C5: `new_map_all_open(0)` has exactly one room, and the tile at
(x, y) is `Floor` precisely on the interior `1 ≤ x ≤ 78`, `1 ≤ y ≤ 48`;
the one-cell border ring is `Wall`. -/
theorem claim_C5 :
    (Map.new_map_all_open 0).rooms = [Rect.new 0 0 78 48] ∧
    ∀ x y : Int, 0 ≤ x → x < 80 → 0 ≤ y → y < 50 →
      (Map.new_map_all_open 0).tiles.get? ((Map.new_map_all_open 0).xy_idx x y)
        = some (if 1 ≤ x ∧ x ≤ 78 ∧ 1 ≤ y ∧ y ≤ 48 then TileType.Floor
            else TileType.Wall) :=
  ⟨all_open_rooms 0,
    fun _ _ hx0 hx1 hy0 hy1 => all_open_tiles_get 0 hx0 hx1 hy0 hy1⟩

/-- Concrete instantiation of C5: (1, 1) is `Floor`, the corner (0, 0) is
`Wall`. -/
theorem claim_C5_witness :
    (Map.new_map_all_open 0).tiles.get? ((Map.new_map_all_open 0).xy_idx 1 1)
      = some TileType.Floor ∧
    (Map.new_map_all_open 0).tiles.get? ((Map.new_map_all_open 0).xy_idx 0 0)
      = some TileType.Wall := by
  constructor
  · have h := claim_C5.2 1 1 (by decide) (by decide) (by decide) (by decide)
    rw [if_pos (by decide)] at h
    exact h
  · have h := claim_C5.2 0 0 (by decide) (by decide) (by decide) (by decide)
    rw [if_neg (by decide)] at h
    exact h

/-- Claim C7: every candidate room drawn inside
`Map::new_map_rooms_and_corridors` (an 80x50 map) has width and height
between 6 and 10 inclusive, and its position keeps the room plus a one-cell
margin inside the grid (`0 ≤ x1`, `x2 ≤ 78`, `0 ≤ y1`, `y2 ≤ 48`). -/
theorem claim_C7 (m : Map) (g : Rng) (hW : m.width = 80) (hH : m.height = 50) :
    6 ≤ (m.rc_candidate g).1.x2 - (m.rc_candidate g).1.x1 ∧
      (m.rc_candidate g).1.x2 - (m.rc_candidate g).1.x1 ≤ 10 ∧
      6 ≤ (m.rc_candidate g).1.y2 - (m.rc_candidate g).1.y1 ∧
      (m.rc_candidate g).1.y2 - (m.rc_candidate g).1.y1 ≤ 10 ∧
      0 ≤ (m.rc_candidate g).1.x1 ∧ (m.rc_candidate g).1.x2 ≤ 78 ∧
      0 ≤ (m.rc_candidate g).1.y1 ∧ (m.rc_candidate g).1.y2 ≤ 48 :=
  rc_candidate_bounds hW hH g

/-- Concrete instantiation of C7 on the all-zero stream. -/
theorem claim_C7_witness :
    6 ≤ ((Map.new 0).rc_candidate (fun _ => 0)).1.x2
        - ((Map.new 0).rc_candidate (fun _ => 0)).1.x1 ∧
      ((Map.new 0).rc_candidate (fun _ => 0)).1.x2
        - ((Map.new 0).rc_candidate (fun _ => 0)).1.x1 ≤ 10 ∧
      6 ≤ ((Map.new 0).rc_candidate (fun _ => 0)).1.y2
        - ((Map.new 0).rc_candidate (fun _ => 0)).1.y1 ∧
      ((Map.new 0).rc_candidate (fun _ => 0)).1.y2
        - ((Map.new 0).rc_candidate (fun _ => 0)).1.y1 ≤ 10 ∧
      0 ≤ ((Map.new 0).rc_candidate (fun _ => 0)).1.x1 ∧
      ((Map.new 0).rc_candidate (fun _ => 0)).1.x2 ≤ 78 ∧
      0 ≤ ((Map.new 0).rc_candidate (fun _ => 0)).1.y1 ∧
      ((Map.new 0).rc_candidate (fun _ => 0)).1.y2 ≤ 48 :=
  claim_C7 (Map.new 0) (fun _ => 0) rfl rfl

/-- Claim C9: `SimpleMapBuilder::build(d)` returns exactly `Map::new(d)`:
an 80x50 all-Wall grid, empty room list, all-false visibility arrays, and
depth `d`. -/
theorem claim_C9 (d : Int) :
    SimpleMapBuilder.build d = Map.new d ∧
    (SimpleMapBuilder.build d).tiles = List.replicate (80 * 50) TileType.Wall ∧
    (SimpleMapBuilder.build d).rooms = [] ∧
    (SimpleMapBuilder.build d).width = 80 ∧
    (SimpleMapBuilder.build d).height = 50 ∧
    (SimpleMapBuilder.build d).revealed_tiles = List.replicate (80 * 50) false ∧
    (SimpleMapBuilder.build d).visible_tiles = List.replicate (80 * 50) false ∧
    (SimpleMapBuilder.build d).depth = d :=
  ⟨rfl, rfl, rfl, rfl, rfl, rfl, rfl, rfl⟩

/-- Claim C10: for every depth and every random stream, the rooms list of
`Map::new_map_rooms_and_corridors` is non-empty, and its first entry is the
very first candidate drawn (the intersection check passes vacuously on an
empty room list). -/
theorem claim_C10 (d : Int) (g : Rng) :
    (Map.new_map_rooms_and_corridors d g).rooms ≠ [] ∧
    (Map.new_map_rooms_and_corridors d g).rooms.get? 0
      = some ((Map.new_with_dimensions 80 50 d).rc_candidate g).1 := by
  obtain ⟨t, ht⟩ := rc_rooms_first d g
  rw [ht]
  exact ⟨List.cons_ne_nil _ _, rfl⟩

/-- Concrete instantiation of C10 on the all-zero stream. -/
theorem claim_C10_witness :
    (Map.new_map_rooms_and_corridors 0 (fun _ => 0)).rooms.get? 0
      = some ((Map.new_with_dimensions 80 50 0).rc_candidate (fun _ => 0)).1 :=
  (claim_C10 0 (fun _ => 0)).2

/-- Claim C4 counterexample: cell (0, 0) of an all-Wall map lies on the
tunnel line `apply_horizontal_tunnel(0, 0, 0)` and its linear index 0 is
inside `[0, width*height)`, yet the tunnel leaves it `Wall`: the guard is
`idx > 0`, so index 0 is silently skipped, contradicting the claim that it
is set to `Floor`. -/
theorem claim_C4_counterexample :
    (Map.new 0).xy_idx 0 0 = 0 ∧ (0 : Nat) < 80 * 50 ∧
    ((Map.new 0).apply_horizontal_tunnel 0 0 0).tiles.get?
        ((Map.new 0).xy_idx 0 0) = some TileType.Wall :=
  ⟨rfl, by decide, rfl⟩

/-- Claim C4 (amended): both tunnel diggers set to `Floor` exactly the
cells of the segment whose linear index lies in the OPEN interval
`(0, width*height)`, and silently skip a cell whose index is 0 or at least
`width*height`, leaving its tile unchanged. -/
theorem claim_C4 (m : Map) (hW0 : 0 ≤ m.width) (hW1 : m.width < 2 ^ 31)
    (hH0 : 0 ≤ m.height) (hH1 : m.height < 2 ^ 31)
    (hT : m.tiles.length = m.width.toNat * m.height.toNat) :
    (∀ x1 x2 y : Int, ∀ x : Int, min x1 x2 ≤ x → x ≤ max x1 x2 →
      ((0 < m.xy_idx x y ∧ m.xy_idx x y < m.width.toNat * m.height.toNat) →
        (m.apply_horizontal_tunnel x1 x2 y).tiles.get? (m.xy_idx x y)
          = some TileType.Floor) ∧
      ((m.xy_idx x y = 0 ∨ m.width.toNat * m.height.toNat ≤ m.xy_idx x y) →
        (m.apply_horizontal_tunnel x1 x2 y).tiles.get? (m.xy_idx x y)
          = m.tiles.get? (m.xy_idx x y))) ∧
    (∀ y1 y2 x : Int, ∀ y : Int, min y1 y2 ≤ y → y ≤ max y1 y2 →
      ((0 < m.xy_idx x y ∧ m.xy_idx x y < m.width.toNat * m.height.toNat) →
        (m.apply_vertical_tunnel y1 y2 x).tiles.get? (m.xy_idx x y)
          = some TileType.Floor) ∧
      ((m.xy_idx x y = 0 ∨ m.width.toNat * m.height.toNat ≤ m.xy_idx x y) →
        (m.apply_vertical_tunnel y1 y2 x).tiles.get? (m.xy_idx x y)
          = m.tiles.get? (m.xy_idx x y))) := by
  have hU : usize_of_i32 m.width * usize_of_i32 m.height
      = m.width.toNat * m.height.toNat := by
    rw [usize_of_i32_eq_toNat hW0 (by omega), usize_of_i32_eq_toNat hH0 (by omega)]
  constructor
  · intro x1 x2 y x hmin hmax
    constructor
    · intro hin
      rw [apply_horizontal_tunnel_tiles]
      refine condfold_hits _ _ _ _ _ ?_
        ⟨x, mem_intRange.mpr ⟨hmin, hmax⟩, ⟨hin.1, ?_⟩, rfl⟩
      · rw [hT]
        exact hin.2
      · rw [hU]
        exact hin.2
    · intro hout
      rw [apply_horizontal_tunnel_tiles]
      apply condfold_get?_ne
      intro a _ hc
      rcases hout with h0 | hge
      · rw [h0]
        omega
      · have h2 := hc.2
        rw [hU] at h2
        omega
  · intro y1 y2 x y hmin hmax
    constructor
    · intro hin
      rw [apply_vertical_tunnel_tiles]
      refine condfold_hits _ _ _ _ _ ?_
        ⟨y, mem_intRange.mpr ⟨hmin, hmax⟩, ⟨hin.1, ?_⟩, rfl⟩
      · rw [hT]
        exact hin.2
      · rw [hU]
        exact hin.2
    · intro hout
      rw [apply_vertical_tunnel_tiles]
      apply condfold_get?_ne
      intro a _ hc
      rcases hout with h0 | hge
      · rw [h0]
        omega
      · have h2 := hc.2
        rw [hU] at h2
        omega

/-- Concrete instantiation of C4 on an all-Wall 80x50 map: both tunnels
carve cell (3, 3), whose index 243 lies in `(0, 4000)`. -/
theorem claim_C4_witness :
    ((Map.new 0).apply_horizontal_tunnel 2 5 3).tiles.get?
        ((Map.new 0).xy_idx 3 3) = some TileType.Floor ∧
    ((Map.new 0).apply_vertical_tunnel 2 5 3).tiles.get?
        ((Map.new 0).xy_idx 3 3) = some TileType.Floor := by
  have hT : (Map.new 0).tiles.length
      = (Map.new 0).width.toNat * (Map.new 0).height.toNat := by
    show (List.replicate (80 * 50) TileType.Wall).length = _
    rw [List.length_replicate]
    decide
  have h := claim_C4 (Map.new 0) (by decide) (by decide) (by decide) (by decide) hT
  exact ⟨(h.1 2 5 3 3 (by decide) (by decide)).1 ⟨by decide, by decide⟩,
    (h.2 2 5 3 3 (by decide) (by decide)).1 ⟨by decide, by decide⟩⟩

/-- Claim C6: on a map with positive i32 dimensions, `xy_idx` restricted to
in-range coordinates is a bijection onto `[0, width*height)`, and
`idx % width`, `idx / width` recover the original pair. -/
theorem claim_C6 (m : Map) (hW : 0 < m.width) (hH : 0 < m.height)
    (hW1 : m.width < 2 ^ 31) (hH1 : m.height < 2 ^ 31) :
    (∀ x y : Int, 0 ≤ x → x < m.width → 0 ≤ y → y < m.height →
      m.xy_idx x y < m.width.toNat * m.height.toNat ∧
      m.xy_idx x y % m.width.toNat = x.toNat ∧
      m.xy_idx x y / m.width.toNat = y.toNat) ∧
    (∀ x y x' y' : Int, 0 ≤ x → x < m.width → 0 ≤ y → y < m.height →
      0 ≤ x' → x' < m.width → 0 ≤ y' → y' < m.height →
      m.xy_idx x y = m.xy_idx x' y' → x = x' ∧ y = y') ∧
    (∀ i : Nat, i < m.width.toNat * m.height.toNat →
      ∃ x y : Int, 0 ≤ x ∧ x < m.width ∧ 0 ≤ y ∧ y < m.height ∧
        m.xy_idx x y = i) := by
  have hWn : 0 < m.width.toNat := by omega
  have hmain : ∀ x y : Int, 0 ≤ x → x < m.width → 0 ≤ y → y < m.height →
      m.xy_idx x y < m.width.toNat * m.height.toNat ∧
      m.xy_idx x y % m.width.toNat = x.toNat ∧
      m.xy_idx x y / m.width.toNat = y.toNat := by
    intro x y hx0 hx1 hy0 hy1
    have hxw : x.toNat < m.width.toNat := by omega
    have hyh : y.toNat < m.height.toNat := by omega
    rw [xy_idx_eq m hx0 (by omega) hy0 (by omega) (by omega) (by omega)]
    refine ⟨?_, ?_, ?_⟩
    · calc y.toNat * m.width.toNat + x.toNat
          < y.toNat * m.width.toNat + m.width.toNat := by omega
        _ = (y.toNat + 1) * m.width.toNat := by ring
        _ ≤ m.height.toNat * m.width.toNat :=
            Nat.mul_le_mul_right _ (by omega)
        _ = m.width.toNat * m.height.toNat := Nat.mul_comm _ _
    · rw [Nat.mul_comm y.toNat m.width.toNat, Nat.mul_add_mod]
      exact Nat.mod_eq_of_lt hxw
    · rw [Nat.mul_comm y.toNat m.width.toNat, Nat.mul_add_div hWn,
        Nat.div_eq_of_lt hxw]
      omega
  refine ⟨hmain, ?_, ?_⟩
  · intro x y x' y' hx0 hx1 hy0 hy1 hx0' hx1' hy0' hy1' heq
    have e1 : m.xy_idx x y % m.width.toNat
        = m.xy_idx x' y' % m.width.toNat := by rw [heq]
    have e2 : m.xy_idx x y / m.width.toNat
        = m.xy_idx x' y' / m.width.toNat := by rw [heq]
    rw [(hmain x y hx0 hx1 hy0 hy1).2.1, (hmain x' y' hx0' hx1' hy0' hy1').2.1]
      at e1
    rw [(hmain x y hx0 hx1 hy0 hy1).2.2, (hmain x' y' hx0' hx1' hy0' hy1').2.2]
      at e2
    omega
  · intro i hi
    have h1 : i % m.width.toNat < m.width.toNat := Nat.mod_lt i hWn
    have h2 : i / m.width.toNat < m.height.toNat := by
      rw [Nat.div_lt_iff_lt_mul hWn]
      rw [Nat.mul_comm] at hi
      exact hi
    have h1c : ((i % m.width.toNat : Nat) : Int) < ((m.width.toNat : Nat) : Int) := by
      exact_mod_cast h1
    have h2c : ((i / m.width.toNat : Nat) : Int) < ((m.height.toNat : Nat) : Int) := by
      exact_mod_cast h2
    have h3c : (0 : Int) ≤ ((i % m.width.toNat : Nat) : Int) := Int.natCast_nonneg _
    have h4c : (0 : Int) ≤ ((i / m.width.toNat : Nat) : Int) := Int.natCast_nonneg _
    refine ⟨((i % m.width.toNat : Nat) : Int), ((i / m.width.toNat : Nat) : Int),
      by omega, by omega, by omega, by omega, ?_⟩
    rw [xy_idx_eq m (by omega) (by omega) (by omega) (by omega) (by omega)
      (by omega), Int.toNat_natCast, Int.toNat_natCast,
      Nat.mul_comm (i / m.width.toNat) m.width.toNat]
    exact Nat.div_add_mod i m.width.toNat

/-- Concrete instantiation of C6 on the 80x50 base map at (3, 4). -/
theorem claim_C6_witness :
    (Map.new 0).xy_idx 3 4 < (Map.new 0).width.toNat * (Map.new 0).height.toNat ∧
    (Map.new 0).xy_idx 3 4 % (Map.new 0).width.toNat = 3 ∧
    (Map.new 0).xy_idx 3 4 / (Map.new 0).width.toNat = 4 := by
  have h := (claim_C6 (Map.new 0) (by decide) (by decide) (by decide)
    (by decide)).1 3 4 (by decide) (by decide) (by decide) (by decide)
  exact ⟨h.1, by rw [h.2.1]; rfl, by rw [h.2.2]; rfl⟩

/-- Claim C8: after every construction path the tile, revealed and visible
arrays all have exactly `width * height` entries. -/
theorem claim_C8 :
    (∀ d : Int, (Map.new d).dimsOk) ∧
    (∀ (w h : Nat) (d : Int), w < 2 ^ 31 → h < 2 ^ 31 →
      (Map.new_with_dimensions w h d).dimsOk) ∧
    (∀ d : Int, (Map.new_map_all_open d).dimsOk) ∧
    (∀ (d : Int) (g : Rng), (Map.new_map_rooms_and_corridors d g).dimsOk) := by
  refine ⟨?_, ?_, ?_, ?_⟩
  · intro d
    have hw : (Map.new d).width = 80 := rfl
    have hh2 : (Map.new d).height = 50 := rfl
    refine ⟨?_, ?_, ?_⟩ <;> rw [hw, hh2]
    · show (List.replicate (80 * 50) TileType.Wall).length
        = Int.toNat 80 * Int.toNat 50
      rw [List.length_replicate]
      decide
    · show (List.replicate (80 * 50) false).length
        = Int.toNat 80 * Int.toNat 50
      rw [List.length_replicate]
      decide
    · show (List.replicate (80 * 50) false).length
        = Int.toNat 80 * Int.toNat 50
      rw [List.length_replicate]
      decide
  · intro w h d hw hh
    obtain ⟨l1, l2, l3⟩ := nwd_lengths w h d
    refine ⟨?_, ?_, ?_⟩ <;>
      rw [nwd_width w h d hw, nwd_height w h d hh, Int.toNat_natCast,
        Int.toNat_natCast]
    · exact l1
    · exact l2
    · exact l3
  · intro d
    refine ⟨?_, ?_, ?_⟩ <;> rw [all_open_width, all_open_height]
    · rw [all_open_tiles_length]
      decide
    · rw [all_open_revealed, List.length_replicate]
      decide
    · rw [all_open_visible, List.length_replicate]
      decide
  · intro d g
    refine ⟨?_, ?_, ?_⟩ <;> rw [(rc_inv_final d g).1, (rc_inv_final d g).2.1]
    · rw [(rc_inv_final d g).2.2.1]
      decide
    · rw [(rc_inv_final d g).2.2.2.1]
      decide
    · rw [(rc_inv_final d g).2.2.2.2.1]
      decide

/-- Concrete instantiation of C8's parameterised constructor at 80x50. -/
theorem claim_C8_witness : (Map.new_with_dimensions 80 50 0).dimsOk :=
  claim_C8.2.1 80 50 0 (by decide) (by decide)

end RL
